import Mathlib

/-!
# Verification of the checkfallbacks fallback-server checker

A shallow embedding of the core of `checkfallbacks.go` (worker pool,
probe executor, check strategies, result model, input loading, output
rendering), with theorems settling the specification's claims.

External collaborators (the chained dialer, the HTTP client, gzip, yaml,
the filesystem) are modelled as oracle parameters: functions supplied to
the embedded code, never inspected by it, exactly as the Go code treats
them as opaque calls.
-/

namespace Checkfallbacks

/-- `chained.ChainedServerInfo` restricted to the fields `checkfallbacks.go`
reads or writes: `Addr`, `Cert`, `PluggableTransport`, `KCPSettings`,
`AuthToken`, `MaxPreconnect`.  The Go `KCPSettings` field is a
`map[string]interface{}`; `none` models a `nil` map, `some entries` a
non-nil map with the given entries (values opaque, modelled as strings). -/
structure ChainedServerInfo where
  Addr : String
  Cert : String
  PluggableTransport : String
  KCPSettings : Option (List (String × String))
  AuthToken : String
  MaxPreconnect : Nat
deriving DecidableEq, Repr

/-- The Go condition `fb.KCPSettings != nil && len(fb.KCPSettings) > 0`. -/
def kcpNonEmpty : Option (List (String × String)) → Bool
  | none => false
  | some entries => entries.length > 0

/-- The protocol-derivation chain at the top of `testFallbackServer`
(checkfallbacks.go lines 219–229): `proto` starts as "http", is overwritten
by "https" when `Cert` is non-empty, then by `PluggableTransport` when that
is non-empty, then by "kcp" when `KCPSettings` is a non-empty map.  Each
`let` shadows the previous value exactly as the Go assignments do. -/
def deriveProto (fb : ChainedServerInfo) : String :=
  let proto := "http"
  let proto := if fb.Cert ≠ "" then "https" else proto
  let proto := if fb.PluggableTransport ≠ "" then fb.PluggableTransport else proto
  let proto := if kcpNonEmpty fb.KCPSettings then "kcp" else proto
  proto

/-- The `fullOutput` result record (checkfallbacks.go lines 162–166):
`addr` echoes the record, `err == nil` (here `none`) means success, `info`
holds verbose request/response dumps. -/
structure fullOutput where
  addr : String
  err : Option String
  info : List String
deriving DecidableEq, Repr

/-- The part of `http.Response` the check strategies read: status code,
headers, and (for verbose mode) the text `httputil.DumpResponse` yields. -/
structure HttpResponse where
  StatusCode : Nat
  Headers : List (String × String)
  Dump : String
deriving DecidableEq, Repr

/-- What one HTTP exchange inside `doTest` can come to: `c.Do` fails,
`c.Do` succeeds but reading the body fails, or a response with a body is
obtained. -/
inductive Exchange where
  | doErr (e : String)
  | readErr (resp : HttpResponse) (e : String)
  | ok (resp : HttpResponse) (body : List Nat)
deriving DecidableEq, Repr

/-- The network behaviour of one `doTest` invocation: how long the check
goroutine takes to deliver its result to the error channel (`checkTime`,
abstract time units), the request dump verbose mode would capture, and the
outcome of the exchange. -/
structure Attempt where
  checkTime : Nat
  reqDump : String
  exchange : Exchange
deriving DecidableEq, Repr

/-- The run configuration (the CLI flags `-verbose`, `-verify`, `-checks`,
`-timeout` read by the probe path). -/
structure Config where
  verbose : Bool
  verify : Bool
  checks : Nat
  timeout : Nat
deriving DecidableEq, Repr

/-- Oracles for the gzip/yaml library calls `verifyUpstream` makes:
`gzip.NewReader` (header validation), `ioutil.ReadAll` over the gzip
reader (decompression), and `yaml.Unmarshal` into the config map. -/
structure Codecs where
  gzipNewReader : List Nat → Except String Unit
  gzipReadAll : List Nat → Except String (List Nat)
  yamlUnmarshal : List Nat → Except String Unit

/-- External collaborators of the probe executor: `http.NewRequest`
(keyed by URL), `client.ChainedDialer` (keyed by the display name and the
record), the gzip/yaml codecs, and the network behaviour of the i-th
check attempt of this probe. -/
structure Env where
  newRequest : String → Except String Unit
  chainedDialer : String → ChainedServerInfo → Except String Unit
  codecs : Codecs
  attempts : Nat → Attempt

/-- The error the check goroutine of `doTest` (lines 314–345) sends on
`errCh`: a `c.Do` failure, a body-read failure, or the verdict of the
`verify` closure. -/
def goroutineErr (fb : ChainedServerInfo) (att : Attempt)
    (vf : HttpResponse → List Nat → Option String) : Option String :=
  match att.exchange with
  | .doErr e => some (fb.Addr ++ ": ping failed: " ++ e)
  | .readErr _ e => some (fb.Addr ++ ": error reading response body: " ++ e)
  | .ok resp body => vf resp body

/-- The verbose dumps the goroutine leaves in `output.info`: the response
dump is appended only in verbose mode and only once a response was
obtained (`c.Do` succeeded). -/
def goroutineInfo (verbose : Bool) (att : Attempt) (info0 : List String) :
    List String :=
  match att.exchange with
  | .doErr _ => info0
  | .readErr resp _ => if verbose then info0 ++ ["\n" ++ resp.Dump] else info0
  | .ok resp _ => if verbose then info0 ++ ["\n" ++ resp.Dump] else info0

/-- `doTest` (lines 311–355): spawn the check goroutine and race its
error-channel send against `time.After(*timeout)`.  The race is decided by
comparing the check duration with the timeout (ties go to the check; the
Go `select` picks either branch at a tie).  On timeout the worker records
`"<addr>: check timed out"` and returns at once; the goroutine's
pre-network steps (request dump into `info`) are taken to have run, its
post-response steps not.  On completion in time, a non-nil error is
recorded (`if err != nil \x7b output.err = err \x7d` — a nil result leaves
`output.err` untouched).  The second component is the wall-clock time the
call occupies the worker: the minimum of check duration and timeout. -/
def doTest (cfg : Config) (fb : ChainedServerInfo) (att : Attempt)
    (vf : HttpResponse → List Nat → Option String) (out : fullOutput) :
    fullOutput × Nat :=
  let info0 := if cfg.verbose then ["\n" ++ att.reqDump] else out.info
  if cfg.timeout < att.checkTime then
    ({ out with err := some (fb.Addr ++ ": check timed out"), info := info0 }, cfg.timeout)
  else
    let info1 := goroutineInfo cfg.verbose att info0
    (match goroutineErr fb att vf with
     | some e => { out with err := some e, info := info1 }
     | none => { out with info := info1 },
     att.checkTime)

/-- The error `doTest` would record into a fresh outcome: the timeout
message when the race is lost, else the goroutine's verdict. -/
def doTestVerdict (cfg : Config) (fb : ChainedServerInfo) (att : Attempt)
    (vf : HttpResponse → List Nat → Option String) : Option String :=
  if cfg.timeout < att.checkTime then some (fb.Addr ++ ": check timed out")
  else goroutineErr fb att vf

/-- The `verify` closure of `ping` (lines 271–279): status must be 200 and
the body exactly 1024 bytes, else a descriptive error. -/
def pingVerify (fb : ChainedServerInfo) (resp : HttpResponse) (body : List Nat) :
    Option String :=
  if resp.StatusCode ≠ 200 then
    some (fb.Addr ++ ": bad status code: " ++ toString resp.StatusCode)
  else if body.length ≠ 1024 then
    some (fb.Addr ++ ": wrong body size: " ++ toString body.length)
  else none

/-- `ping` (lines 264–280): build the synthetic request (the `PingHeader`
asking for 1 KB is set on it) and run `doTest` with `pingVerify`. -/
def ping (cfg : Config) (env : Env) (fb : ChainedServerInfo) (att : Attempt)
    (out : fullOutput) : fullOutput :=
  match env.newRequest "http://ping-chained-server" with
  | .error e => { out with err := some (fb.Addr ++ ": NewRequest to ping failed: " ++ e) }
  | .ok _ => (doTest cfg fb att (pingVerify fb) out).1

/-- The `verify` closure of `verifyUpstream` (lines 288–308): status must
be 200, the body must open and read as gzip, and the decompressed bytes
must yaml-parse; the response headers are never inspected. -/
def verifyUpstreamVerify (cd : Codecs) (fb : ChainedServerInfo)
    (resp : HttpResponse) (body : List Nat) : Option String :=
  if resp.StatusCode ≠ 200 then
    some (fb.Addr ++ ": bad status code: " ++ toString resp.StatusCode)
  else
    match cd.gzipNewReader body with
    | .error e => some (fb.Addr ++ ": can\x27t open gzip reader for config body: " ++ e)
    | .ok _ =>
      match cd.gzipReadAll body with
      | .error e => some (fb.Addr ++ ": can\x27t read config body: " ++ e)
      | .ok cfgBytes =>
        match cd.yamlUnmarshal cfgBytes with
        | .error e => some (fb.Addr ++ ": can\x27t parse config response: " ++ e)
        | .ok _ => none

/-- `verifyUpstream` (lines 282–309): build the request to the config
endpoint and run `doTest` with `verifyUpstreamVerify`. -/
def verifyUpstream (cfg : Config) (env : Env) (fb : ChainedServerInfo)
    (att : Attempt) (out : fullOutput) : fullOutput :=
  match env.newRequest "http://config.getiantem.org/proxies.yaml.gz" with
  | .error e =>
      { out with err := some (fb.Addr ++ ": NewRequest to config.getiantem.org failed: " ++ e) }
  | .ok _ => (doTest cfg fb att (verifyUpstreamVerify env.codecs fb) out).1

/-- One iteration of the check loop of `testFallbackServer`
(lines 253–259): `verifyUpstream` when `-verify` is set, `ping` otherwise;
the i-th iteration sees the i-th network attempt. -/
def checkOnce (cfg : Config) (env : Env) (fb : ChainedServerInfo) (out : fullOutput)
    (i : Nat) : fullOutput :=
  if cfg.verify then verifyUpstream cfg env fb (env.attempts i) out
  else ping cfg env fb (env.attempts i) out

/-- `testFallbackServer` (lines 216–262).  The record arrives by pointer;
the assignment `fb.MaxPreconnect = 1` writes through it, so the function
returns the outcome together with the record as it stands afterwards.
The protocol name is derived first, `MaxPreconnect` is set, the dialer is
built (a failure is recorded in the outcome and the function returns),
then the check loop runs `*checks` times on the shared outcome. -/
def testFallbackServer (cfg : Config) (env : Env) (fb0 : ChainedServerInfo)
    (workerID : Nat) : fullOutput × ChainedServerInfo :=
  let output : fullOutput := { addr := fb0.Addr, err := none, info := [] }
  let proto := deriveProto fb0
  let name := fb0.Addr ++ " (" ++ proto ++ ")"
  let fb : ChainedServerInfo := { fb0 with MaxPreconnect := 1 }
  let _ := workerID
  match env.chainedDialer name fb with
  | .error e => ({ output with err := some (fb.Addr ++ ": error building dialer: " ++ e) }, fb)
  | .ok _ => ((List.range cfg.checks).foldl (checkOnce cfg env fb) output, fb)

/-- The error check number `i` contributes on its own: what `checkOnce`
would leave in a fresh, error-free outcome. -/
def checkVerdict (cfg : Config) (env : Env) (fb : ChainedServerInfo) (i : Nat) :
    Option String :=
  (checkOnce cfg env fb { addr := fb.Addr, err := none, info := [] } i).err

/-- The last non-`none` entry of a list of per-check verdicts (`none` when
all are `none`): the error text `output.err` holds after sequential checks
whose failures overwrite it and whose successes leave it alone. -/
def lastErr (l : List (Option String)) : Option String :=
  l.foldl (fun acc o => o.elim acc some) none

/-! ## Input loading and output rendering -/

/-- The display name `fmt.Sprintf("%v (%v)", fb.Addr, proto)` under which
the dialer is requested. -/
def dialName (fb : ChainedServerInfo) : String :=
  fb.Addr ++ " (" ++ deriveProto fb ++ ")"

/-- The body of the cert loop in `loadFallbacks` (line 156): the value the
loop-local copy holds after `fb.Cert = strings.Replace(fb.Cert, "\n", "\\n", -1)`. -/
def certLoopBody (fb : ChainedServerInfo) : ChainedServerInfo :=
  { fb with Cert := fb.Cert.replace "\n" "\\n" }

/-- The post-parse loop of `loadFallbacks` (lines 153–158).  Go
`for _, fb := range fbs` binds `fb` to a copy of each slice element; the
body assigns to that copy's `Cert` field and the copy is discarded when
the iteration ends, so the slice itself is left as parsed. -/
def replaceCertNewlines (fallbacks : List (List ChainedServerInfo)) :
    List (List ChainedServerInfo) :=
  fallbacks.map (fun fbs => fbs.map (fun fb =>
    let fbCopy := certLoopBody fb
    let _ := fbCopy
    fb))

/-- Oracles for the filesystem and JSON collaborators of `loadFallbacks`:
`ioutil.ReadFile` and `json.Unmarshal` into `[][]chained.ChainedServerInfo`. -/
structure FileEnv where
  readFile : String → Except String (List Nat)
  jsonUnmarshal : List Nat → Except String (List (List ChainedServerInfo))

/-- `loadFallbacks` (lines 136–160): an empty filename prints usage and
exits with status 2; a read or unmarshal failure hits `log.Fatalf`, which
exits with status 1; otherwise the parsed list runs through the
(ineffective) cert loop and is returned.  `Except.error c` models
`os.Exit(c)`. -/
def loadFallbacks (fsys : FileEnv) (filename : String) :
    Except Nat (List (List ChainedServerInfo)) :=
  if filename = "" then .error 2
  else
    match fsys.readFile filename with
    | .error _ => .error 1
    | .ok fileBytes =>
      match fsys.jsonUnmarshal fileBytes with
      | .error _ => .error 1
      | .ok fallbacks => .ok (replaceCertNewlines fallbacks)

/-- The exit status of `main`: `loadFallbacks` may exit with a non-zero
code before any probing; once it returns, `main` drains the output
channel, prints each outcome, and falls off the end of `main`, so the
process exits 0 whatever the outcomes were. -/
def mainExitCode (fsys : FileEnv) (filename : String) : Nat :=
  match loadFallbacks fsys filename with
  | .error c => c
  | .ok _ => 0

/-- The rendering of one outcome by the loop of `main` (lines 73–85): a
failure line when `err` is set, else the OK line naming the address, then
the verbose dumps (each behind an `[output] ` marker) when `-verbose` is
set and any exist. -/
def renderOutcome (verbose : Bool) (out : fullOutput) : List String :=
  (match out.err with
   | some e => ["[failed fallback check] " ++ e]
   | none => ["Fallback " ++ out.addr ++ " OK."]) ++
  (if verbose = true ∧ out.info.length > 0
   then out.info.map (fun msg => "[output] " ++ msg)
   else [])

/-- The whole operator-facing stream: outcomes rendered one after another
in the order they arrive on the output channel. -/
def renderAll (verbose : Bool) (outs : List fullOutput) : List String :=
  outs.flatMap (renderOutcome verbose)

/-! ## The worker pool (`testAllFallbacks`, lines 169–213)

The pool is embedded as a state machine driven by an adversarial
schedule.  The state holds the work channel `fbChan` (filled with every
record up front and closed, hence a finite FIFO queue), the status of
each of the `*connections` workers, the outcomes published to `output`
so far, and whether `output` has been closed.  A schedule event either
lets one worker take its next atomic step (receive a record / publish the
outcome of the record it holds / observe the closed empty channel and
call `Done()`) or lets the monitor goroutine pass `workersWg.Wait()` and
run `close(output)` — which it can only do once every worker has called
`Done()`. -/

/-- What one pool worker is doing: waiting on `fbChan`, holding a record
whose outcome it has not yet sent on `output`, or returned after
`Done()`. -/
inductive WStatus where
  | idle
  | busy (fb : ChainedServerInfo)
  | finished
deriving DecidableEq, Repr

/-- The records held by currently-busy workers. -/
def busyItems : List WStatus → List ChainedServerInfo
  | [] => []
  | .busy fb :: rest => fb :: busyItems rest
  | .idle :: rest => busyItems rest
  | .finished :: rest => busyItems rest

/-- The pool state: pending queue, worker statuses, published outcomes
(each outcome paired with the record it came from), and whether the
output channel has been closed. -/
structure PoolState where
  queue : List ChainedServerInfo
  workers : List WStatus
  output : List (ChainedServerInfo × fullOutput)
  closed : Bool
deriving DecidableEq, Repr

/-- A schedule event: run worker `i` for one atomic step, or attempt the
monitor's `workersWg.Wait(); close(output)`. -/
inductive Ev where
  | work (i : Nat)
  | closeOutput
deriving DecidableEq, Repr

/-- One transition of the pool.  An idle worker whose receive on `fbChan`
finds a record starts processing it; one that finds the channel closed
and empty leaves its range loop and calls `Done()`; a busy worker sends
`testFallbackServer`'s outcome on `output` and loops; the monitor's
`close(output)` fires only when every worker has called `Done()`. -/
def step (probe : ChainedServerInfo → fullOutput) (s : PoolState) : Ev → PoolState
  | .work i =>
    match s.workers[i]? with
    | some .idle =>
      match s.queue with
      | [] => { s with workers := s.workers.set i .finished }
      | fb :: rest => { s with queue := rest, workers := s.workers.set i (.busy fb) }
    | some (.busy fb) =>
      { s with workers := s.workers.set i .idle, output := s.output ++ [(fb, probe fb)] }
    | some .finished => s
    | none => s
  | .closeOutput =>
    if ∀ w ∈ s.workers, w = WStatus.finished then { s with closed := true } else s

/-- The records of `fbChan`: every group's records in order (lines
173–183 count and enqueue `fallbacks` group by group). -/
def flattenFallbacks (fallbacks : List (List ChainedServerInfo)) :
    List ChainedServerInfo :=
  fallbacks.flatten

/-- The pool state right after `testAllFallbacks` filled and closed
`fbChan` and spawned `*connections` idle workers. -/
def initPool (fallbacks : List (List ChainedServerInfo)) (numConns : Nat) : PoolState :=
  { queue := flattenFallbacks fallbacks
    workers := List.replicate numConns .idle
    output := []
    closed := false }

/-- Run the pool under a schedule. -/
def runPool (probe : ChainedServerInfo → fullOutput) (s : PoolState)
    (sched : List Ev) : PoolState :=
  sched.foldl (step probe) s

/-! ## Concrete fixtures for witnesses and counterexamples -/

/-- A plaintext record: no certificate, no pluggable transport, nil KCP. -/
def fbPlain : ChainedServerInfo :=
  { Addr := "188.166.1.1:443", Cert := "", PluggableTransport := "",
    KCPSettings := none, AuthToken := "tok1", MaxPreconnect := 0 }

/-- A record with every protocol field set at once: certificate, named
pluggable transport, and a non-empty KCP settings map. -/
def fbKcp : ChainedServerInfo :=
  { Addr := "10.0.0.2:443", Cert := "-----CERT-----", PluggableTransport := "obfs4",
    KCPSettings := some [("mtu", "1350")], AuthToken := "tok2", MaxPreconnect := 0 }

/-- A 200 response carrying no headers at all. -/
def respOK : HttpResponse := { StatusCode := 200, Headers := [], Dump := "RESP" }

/-- A 500 response. -/
def respBad : HttpResponse := { StatusCode := 500, Headers := [], Dump := "RESP" }

/-- A body of exactly 1024 bytes. -/
def bodyOK : List Nat := List.replicate 1024 0

/-- Codecs on which every gzip/yaml call succeeds. -/
def cdOK : Codecs :=
  { gzipNewReader := fun _ => .ok ()
    gzipReadAll := fun _ => .ok [7]
    yamlUnmarshal := fun _ => .ok () }

/-- A prompt, successful 200/1024 exchange. -/
def attOK : Attempt := { checkTime := 0, reqDump := "REQ", exchange := .ok respOK bodyOK }

/-- An environment where requests, dialing and codecs all succeed and
every attempt is `attOK`. -/
def envOK : Env :=
  { newRequest := fun _ => .ok ()
    chainedDialer := fun _ _ => .ok ()
    codecs := cdOK
    attempts := fun _ => attOK }

/-- Defaults of the relevant flags: one check, 30-unit timeout, ping
mode, quiet. -/
def cfgPing : Config := { verbose := false, verify := false, checks := 1, timeout := 30 }

/-- Same configuration in verify-upstream mode. -/
def cfgVerify : Config := { verbose := false, verify := true, checks := 1, timeout := 30 }

/-- A fresh outcome as `testFallbackServer` initialises it. -/
def emptyOutput (addr : String) : fullOutput := { addr := addr, err := none, info := [] }

/-- The ping configuration with two checks per connection. -/
def cfgTwo : Config := { verbose := false, verify := false, checks := 2, timeout := 30 }

/-- A record whose certificate contains a literal newline, as in the
repository's `test.json` fixture. -/
def fbCert : ChainedServerInfo :=
  { Addr := "78.62.239.134:443", Cert := "-----CERTIFICATE-----\n",
    PluggableTransport := "", KCPSettings := none, AuthToken := "a1", MaxPreconnect := 0 }

/-- A file environment whose read and unmarshal both succeed, yielding a
single group holding `fbCert`. -/
def fsysW : FileEnv :=
  { readFile := fun _ => .ok [123]
    jsonUnmarshal := fun _ => .ok [[fbCert]] }

/-! ## Pool invariant and schedules -/

/-- The inductive invariant of the pool: the worker count never changes;
every input record sits in exactly one place (still queued, held by a
busy worker, or already published); a worker only leaves its loop once
the queue is exhausted; the output channel closes only after every worker
has returned; and every published outcome is the probe of its record. -/
structure PoolInv (probe : ChainedServerInfo → fullOutput)
    (records : List ChainedServerInfo) (n : Nat) (s : PoolState) : Prop where
  wlen : s.workers.length = n
  cnt : ∀ a, s.queue.count a + (busyItems s.workers).count a
          + (s.output.map Prod.fst).count a = records.count a
  doneEmpty : WStatus.finished ∈ s.workers → s.queue = []
  closedDone : s.closed = true → ∀ w ∈ s.workers, w = WStatus.finished
  outProbe : ∀ p ∈ s.output, p.2 = probe p.1

/-- A schedule in which worker 0 alone takes and publishes each of `len`
queued records in turn. -/
def drainSched (len : Nat) : List Ev :=
  (List.replicate len [Ev.work 0, Ev.work 0]).flatten

/-- A schedule in which workers `j`, `j+1`, …, `j+k-1` each observe the
empty closed queue once and return. -/
def finishSched (j k : Nat) : List Ev :=
  (List.range k).map (fun t => Ev.work (j + t))

/-- What C1 asserts of `testAllFallbacks`: under every schedule no record
is ever published twice, every published outcome is its record's probe,
and once the output channel has closed all `n` workers have returned and
the published records are exactly the input records, one outcome each;
moreover some schedule does close the channel, so the stream terminates. -/
def poolSpec (probe : ChainedServerInfo → fullOutput)
    (fallbacks : List (List ChainedServerInfo)) (n : Nat) : Prop :=
  (∀ (sched : List Ev) (a : ChainedServerInfo),
    ((runPool probe (initPool fallbacks n) sched).output.map Prod.fst).count a
      ≤ (flattenFallbacks fallbacks).count a) ∧
  (∀ (sched : List Ev) (p : ChainedServerInfo × fullOutput),
    p ∈ (runPool probe (initPool fallbacks n) sched).output → p.2 = probe p.1) ∧
  (∀ sched : List Ev, (runPool probe (initPool fallbacks n) sched).closed = true →
    (∀ w ∈ (runPool probe (initPool fallbacks n) sched).workers, w = WStatus.finished) ∧
    (runPool probe (initPool fallbacks n) sched).workers.length = n ∧
    ((runPool probe (initPool fallbacks n) sched).output.map Prod.fst).Perm
      (flattenFallbacks fallbacks)) ∧
  (∃ sched : List Ev, (runPool probe (initPool fallbacks n) sched).closed = true)

/-- A file environment whose read fails. -/
def fsysBad : FileEnv :=
  { readFile := fun _ => .error "no such file"
    jsonUnmarshal := fun _ => .ok [] }

/-- An environment whose dialer construction always fails. -/
def envBadDialer : Env :=
  { envOK with chainedDialer := fun _ _ => .error "bad cert" }

/-- A successful outcome carrying one verbose dump line. -/
def outOKW : fullOutput := { addr := "188.166.1.1:443", err := none, info := ["dump"] }

/-- A failed outcome. -/
def outFailW : fullOutput :=
  { addr := "188.166.1.1:443", err := some "188.166.1.1:443: check timed out", info := [] }

/-- A probe standing in for `testFallbackServer` in concrete pool runs. -/
def probeW : ChainedServerInfo → fullOutput := fun fb => emptyOutput fb.Addr

/-- Two groups of one record each, as a concrete input list. -/
def fbsW : List (List ChainedServerInfo) := [[fbPlain], [fbCert]]

end Checkfallbacks

namespace Checkfallbacks

/-! ## Theorems -/

/-- C2: the effective protocol follows the precedence non-empty
`KCPSettings` → "kcp" (regardless of the other fields); else non-empty
`PluggableTransport` → that named protocol; else non-empty `Cert` →
"https"; else "http". -/
theorem deriveProto_precedence (fb : ChainedServerInfo) :
    (kcpNonEmpty fb.KCPSettings = true → deriveProto fb = "kcp") ∧
    (kcpNonEmpty fb.KCPSettings = false → fb.PluggableTransport ≠ "" →
      deriveProto fb = fb.PluggableTransport) ∧
    (kcpNonEmpty fb.KCPSettings = false → fb.PluggableTransport = "" →
      fb.Cert ≠ "" → deriveProto fb = "https") ∧
    (kcpNonEmpty fb.KCPSettings = false → fb.PluggableTransport = "" →
      fb.Cert = "" → deriveProto fb = "http") := by
  unfold deriveProto
  refine ⟨?_, ?_, ?_, ?_⟩ <;> intros <;> simp_all

/-- Witness for C2: a record with certificate, pluggable transport and a
non-empty KCP map at once is routed to "kcp". -/
theorem deriveProto_precedence_witness :
    kcpNonEmpty fbKcp.KCPSettings = true ∧ deriveProto fbKcp = "kcp" :=
  ⟨by decide, (deriveProto_precedence fbKcp).1 (by decide)⟩

/-- Counterexample to C4 as stated: `testFallbackServer` writes
`MaxPreconnect = 1` through the record pointer, so a record probed with
`MaxPreconnect = 0` is not the same record afterwards. -/
theorem testFallbackServer_mutates_counterexample :
    (testFallbackServer cfgPing envOK fbPlain 1).2 ≠ fbPlain ∧ fbPlain.MaxPreconnect = 0 := by
  constructor
  · intro h
    have : (1 : Nat) = 0 := congrArg ChainedServerInfo.MaxPreconnect h
    simp at this
  · rfl

/-- C4 amended: the only field `testFallbackServer` mutates is
`MaxPreconnect`, which it sets to 1; every other field of the record is
preserved, on success and on failure alike. -/
theorem testFallbackServer_mutates_only_maxPreconnect (cfg : Config) (env : Env)
    (fb : ChainedServerInfo) (wid : Nat) :
    (testFallbackServer cfg env fb wid).2 = { fb with MaxPreconnect := 1 } := by
  cases h : env.chainedDialer (fb.Addr ++ " (" ++ deriveProto fb ++ ")")
      { fb with MaxPreconnect := 1 } <;> simp [testFallbackServer, h]

/-- Counterexample to C3 as stated: a response with no headers at all,
status 200, and a body whose gzip and yaml handling succeed is recorded
as a success (`err = none`) by the verify-upstream check — the missing
marker header does not make it fail. -/
theorem verifyUpstream_header_counterexample :
    respOK.Headers = [] ∧
    (verifyUpstream cfgVerify envOK fbPlain attOK (emptyOutput fbPlain.Addr)).err = none :=
  ⟨rfl, rfl⟩

/-- C3 amended: `verifyUpstream` never inspects the response headers (its
verdict is the same under any header list), and it succeeds exactly when
the status is 200, the gzip reader opens and reads, and the decompressed
bytes yaml-parse.  (The marker-header test belonged to the older `geo`
strategy, not to `verifyUpstream`.) -/
theorem verifyUpstream_ignores_headers (cd : Codecs) (fb : ChainedServerInfo)
    (st : Nat) (hs hs' : List (String × String)) (d d' : String) (body : List Nat) :
    verifyUpstreamVerify cd fb ⟨st, hs, d⟩ body
      = verifyUpstreamVerify cd fb ⟨st, hs', d'⟩ body ∧
    (verifyUpstreamVerify cd fb ⟨st, hs, d⟩ body = none ↔
      st = 200 ∧ cd.gzipNewReader body = .ok () ∧
      ∃ cb, cd.gzipReadAll body = .ok cb ∧ cd.yamlUnmarshal cb = .ok ()) := by
  refine ⟨rfl, ?_⟩
  unfold verifyUpstreamVerify
  by_cases hst : st = 200
  · subst hst
    simp only [ne_eq, not_true_eq_false, if_false, reduceIte]
    cases h1 : cd.gzipNewReader body with
    | error e => simp [h1]
    | ok u =>
      cases u
      cases h2 : cd.gzipReadAll body with
      | error e => simp [h1, h2]
      | ok cb =>
        cases h3 : cd.yamlUnmarshal cb with
        | error e => simp [h1, h2, h3]
        | ok v => cases v; simp [h1, h2, h3]
  · simp [hst]

/-- C6: when the check outlasts the configured timeout, the race is won
by the wall clock: the outcome's error is the timeout message naming the
record's address, and the worker is occupied for exactly the timeout
bound, not longer. -/
theorem doTest_timeout (cfg : Config) (fb : ChainedServerInfo) (att : Attempt)
    (vf : HttpResponse → List Nat → Option String) (out : fullOutput)
    (h : cfg.timeout < att.checkTime) :
    (doTest cfg fb att vf out).1.err = some (fb.Addr ++ ": check timed out") ∧
    (doTest cfg fb att vf out).2 = cfg.timeout := by
  unfold doTest
  simp [h]

/-- Witness for C6: a 5-unit check against a 1-unit timeout yields the
timeout error and frees the worker after 1 unit. -/
theorem doTest_timeout_witness :
    (1 : Nat) < 5 ∧
    ((doTest { cfgPing with timeout := 1 } fbPlain { attOK with checkTime := 5 }
        (pingVerify fbPlain) (emptyOutput fbPlain.Addr)).1.err
      = some (fbPlain.Addr ++ ": check timed out") ∧
     (doTest { cfgPing with timeout := 1 } fbPlain { attOK with checkTime := 5 }
        (pingVerify fbPlain) (emptyOutput fbPlain.Addr)).2 = 1) :=
  ⟨by decide,
   doTest_timeout { cfgPing with timeout := 1 } fbPlain { attOK with checkTime := 5 }
     (pingVerify fbPlain) (emptyOutput fbPlain.Addr) (by decide)⟩

/-- C5: the ping check succeeds exactly when the status is 200 and the
body is exactly 1024 bytes; a bad status or a wrong body length each
yield the error naming that condition; and when the exchange completes
within the timeout, the strategy records precisely the verify verdict
(overwriting `err` on failure, leaving it alone on success). -/
theorem ping_success_iff (cfg : Config) (env : Env) (fb : ChainedServerInfo)
    (att : Attempt) (out : fullOutput) (resp : HttpResponse) (body : List Nat) :
    (pingVerify fb resp body = none ↔ resp.StatusCode = 200 ∧ body.length = 1024) ∧
    (resp.StatusCode ≠ 200 →
      pingVerify fb resp body
        = some (fb.Addr ++ ": bad status code: " ++ toString resp.StatusCode)) ∧
    (resp.StatusCode = 200 → body.length ≠ 1024 →
      pingVerify fb resp body
        = some (fb.Addr ++ ": wrong body size: " ++ toString body.length)) ∧
    (env.newRequest "http://ping-chained-server" = .ok () →
      att.exchange = .ok resp body → att.checkTime ≤ cfg.timeout →
      (ping cfg env fb att out).err = (pingVerify fb resp body).elim out.err some) := by
  refine ⟨?_, ?_, ?_, ?_⟩
  · unfold pingVerify
    by_cases h1 : resp.StatusCode = 200 <;> by_cases h2 : body.length = 1024 <;>
      simp [h1, h2]
  · intro h; simp [pingVerify, h]
  · intro h1 h2; simp [pingVerify, h1, h2]
  · intro h1 h2 h3
    have hnt : ¬ cfg.timeout < att.checkTime := Nat.not_lt.mpr h3
    simp only [ping, h1]
    unfold doTest
    simp only [hnt, if_false, reduceIte]
    unfold goroutineErr
    rw [h2]
    cases hv : pingVerify fb resp body <;> simp [hv]

/-- Witness for C5: a 200/1024 exchange passes; a 500 status fails with
the status error; and through the full ping strategy with the default
configuration the verdict is recorded verbatim. -/
theorem ping_success_iff_witness :
    (pingVerify fbPlain respOK bodyOK = none) ∧
    (respBad.StatusCode ≠ 200 ∧
      pingVerify fbPlain respBad bodyOK
        = some (fbPlain.Addr ++ ": bad status code: " ++ toString respBad.StatusCode)) ∧
    (envOK.newRequest "http://ping-chained-server" = .ok () ∧
      attOK.exchange = .ok respOK bodyOK ∧ attOK.checkTime ≤ cfgPing.timeout ∧
      (ping cfgPing envOK fbPlain attOK (emptyOutput fbPlain.Addr)).err
        = (pingVerify fbPlain respOK bodyOK).elim (emptyOutput fbPlain.Addr).err some) :=
  ⟨(ping_success_iff cfgPing envOK fbPlain attOK (emptyOutput fbPlain.Addr) respOK bodyOK).1.mpr
      ⟨rfl, by rw [bodyOK, List.length_replicate]⟩,
   ⟨by decide,
    (ping_success_iff cfgPing envOK fbPlain attOK (emptyOutput fbPlain.Addr) respBad bodyOK).2.1
      (by decide)⟩,
   ⟨rfl, rfl, by decide,
    (ping_success_iff cfgPing envOK fbPlain attOK (emptyOutput fbPlain.Addr) respOK bodyOK).2.2.2
      rfl rfl (by decide)⟩⟩

/-- The failure line and the OK line can never coincide: they start with
different characters, so automation can tell them apart. -/
theorem failLine_ne_okLine (e a : String) :
    "[failed fallback check] " ++ e ≠ "Fallback " ++ a ++ " OK." := by
  intro h
  have h1 : ("[failed fallback check] " ++ e).data.head? = some '[' := by
    rw [String.data_append]; rfl
  have h2 : ("Fallback " ++ a ++ " OK.").data.head? = some 'F' := by
    rw [String.data_append, String.data_append]; rfl
  rw [h] at h1
  have h3 := h2.symm.trans h1
  simp at h3

/-- C8: the aggregator prints exactly one outcome line per outcome — the
failure line exactly when `err` is present, the OK line naming the
address exactly when it is absent — the diagnostics never influence which
line is printed, and verbose diagnostic lines follow immediately after
that outcome's line. -/
theorem aggregator_line_per_outcome (v : Bool) (out : fullOutput) :
    (out.err = none → renderOutcome v out =
      ("Fallback " ++ out.addr ++ " OK.") ::
        (if v = true ∧ out.info.length > 0
         then out.info.map (fun m => "[output] " ++ m) else [])) ∧
    (∀ e, out.err = some e → renderOutcome v out =
      ("[failed fallback check] " ++ e) ::
        (if v = true ∧ out.info.length > 0
         then out.info.map (fun m => "[output] " ++ m) else [])) ∧
    ((renderOutcome v out).head? = some ("Fallback " ++ out.addr ++ " OK.") ↔
      out.err = none) ∧
    ((renderOutcome v out).head? = (renderOutcome v { out with info := [] }).head?) ∧
    (∀ outs : List fullOutput, (renderAll false outs).length = outs.length) := by
  have hone : ∀ o : fullOutput, (renderOutcome false o).length = 1 := by
    intro o; cases h : o.err <;> simp [renderOutcome, h]
  refine ⟨?_, ?_, ?_, ?_, ?_⟩
  · intro h; simp [renderOutcome, h]
  · intro e h; simp [renderOutcome, h]
  · cases h : out.err with
    | none => simp [renderOutcome, h]
    | some e =>
      simp only [renderOutcome, h, List.cons_append, List.head?_cons,
        Option.some.injEq]
      constructor
      · intro hh; exact absurd hh (failLine_ne_okLine e out.addr)
      · intro hh; cases hh
  · cases h : out.err <;> simp [renderOutcome, h]
  · intro outs
    induction outs with
    | nil => rfl
    | cons o t ih =>
      simp only [renderAll, List.flatMap_cons, List.length_append, List.length_cons] at ih ⊢
      rw [hone o]
      omega

/-- Witness for C8: a success outcome with one verbose dump renders as
the OK line followed by its marked dump line; a failure outcome renders
as the failure line. -/
theorem aggregator_line_per_outcome_witness :
    (outOKW.err = none ∧ renderOutcome true outOKW =
      ("Fallback " ++ outOKW.addr ++ " OK.") ::
        (if true = true ∧ outOKW.info.length > 0
         then outOKW.info.map (fun m => "[output] " ++ m) else [])) ∧
    (outFailW.err = some "188.166.1.1:443: check timed out" ∧ renderOutcome true outFailW =
      ("[failed fallback check] " ++ "188.166.1.1:443: check timed out") ::
        (if true = true ∧ outFailW.info.length > 0
         then outFailW.info.map (fun m => "[output] " ++ m) else [])) :=
  ⟨⟨rfl, (aggregator_line_per_outcome true outOKW).1 rfl⟩,
   ⟨rfl, (aggregator_line_per_outcome true outFailW).2.1
      "188.166.1.1:443: check timed out" rfl⟩⟩

/-- C9: `loadFallbacks` hands back the record list exactly as
deserialized — the certificate-newline loop iterates over value copies
and has no effect — so certificates keep their literal newlines. -/
theorem loadFallbacks_returns_parsed :
    (∀ fallbacks, replaceCertNewlines fallbacks = fallbacks) ∧
    (∀ (fsys : FileEnv) (fn : String) (bs : List Nat)
        (fbs : List (List ChainedServerInfo)),
      fn ≠ "" → fsys.readFile fn = .ok bs → fsys.jsonUnmarshal bs = .ok fbs →
      loadFallbacks fsys fn = .ok fbs) := by
  have hrep : ∀ fallbacks, replaceCertNewlines fallbacks = fallbacks := by
    intro fallbacks
    unfold replaceCertNewlines
    simp
  refine ⟨hrep, ?_⟩
  intro fsys fn bs fbs h1 h2 h3
  simp [loadFallbacks, h1, h2, h3, hrep]

/-- Witness for C9: a parse yielding a record whose certificate holds a
literal newline comes back from `loadFallbacks` with that newline still
in place. -/
theorem loadFallbacks_returns_parsed_witness :
    ("test.json" ≠ (("" : String)) ∧ fsysW.readFile "test.json" = .ok [123] ∧
      fsysW.jsonUnmarshal [123] = .ok [[fbCert]]) ∧
    loadFallbacks fsysW "test.json" = .ok [[fbCert]] ∧
    fbCert.Cert = "-----CERTIFICATE-----\n" :=
  ⟨⟨by decide, rfl, rfl⟩,
   loadFallbacks_returns_parsed.2 fsysW "test.json" [123] [[fbCert]] (by decide) rfl rfl,
   rfl⟩

/-- `doTest` leaves in `err` exactly its verdict when the verdict is a
failure and the incoming error otherwise. -/
theorem doTest_err_elim (cfg : Config) (fb : ChainedServerInfo) (att : Attempt)
    (vf : HttpResponse → List Nat → Option String) (out : fullOutput) :
    (doTest cfg fb att vf out).1.err = (doTestVerdict cfg fb att vf).elim out.err some := by
  unfold doTest doTestVerdict
  by_cases h : cfg.timeout < att.checkTime
  · simp [h]
  · simp only [h, if_false, reduceIte]
    cases hv : goroutineErr fb att vf <;> simp [hv]

/-- One check updates `err` by overwriting it with its own verdict when
that verdict is a failure and leaving it alone when the check passes. -/
theorem checkOnce_err (cfg : Config) (env : Env) (fb : ChainedServerInfo)
    (out : fullOutput) (i : Nat) :
    (checkOnce cfg env fb out i).err = (checkVerdict cfg env fb i).elim out.err some := by
  unfold checkVerdict checkOnce ping verifyUpstream
  cases hv : cfg.verify <;> simp only [hv, Bool.false_eq_true, if_false, if_true, reduceIte]
  · cases hr : env.newRequest "http://ping-chained-server" with
    | error e => simp
    | ok u =>
      cases u
      rw [doTest_err_elim, doTest_err_elim]
      cases hv2 : doTestVerdict cfg fb (env.attempts i) (pingVerify fb) <;> simp [hv2]
  · cases hr : env.newRequest "http://config.getiantem.org/proxies.yaml.gz" with
    | error e => simp
    | ok u =>
      cases u
      rw [doTest_err_elim, doTest_err_elim]
      cases hv2 : doTestVerdict cfg fb (env.attempts i) (verifyUpstreamVerify env.codecs fb) <;>
        simp [hv2]

/-- The check loop folds each check's verdict into `err` by the
overwrite-on-failure rule. -/
theorem foldl_checkOnce_err (cfg : Config) (env : Env) (fb : ChainedServerInfo)
    (l : List Nat) :
    ∀ out : fullOutput,
    (l.foldl (checkOnce cfg env fb) out).err
      = l.foldl (fun acc i => (checkVerdict cfg env fb i).elim acc some) out.err := by
  induction l with
  | nil => intro out; rfl
  | cons i t ih =>
    intro out
    simp only [List.foldl_cons]
    rw [ih, checkOnce_err]

/-- Folding verdicts by overwrite-on-failure yields `none` exactly when
the accumulator and every folded verdict are `none`. -/
theorem foldl_elim_none (l : List (Option String)) :
    ∀ acc, l.foldl (fun a o => o.elim a some) acc = none ↔
      (acc = none ∧ ∀ o ∈ l, o = none) := by
  induction l with
  | nil => intro acc; simp
  | cons o t ih =>
    intro acc
    simp only [List.foldl_cons]
    rw [ih]
    cases o <;> simp

/-- `lastErr` is `none` exactly when every verdict in the list is. -/
theorem lastErr_none_iff (l : List (Option String)) :
    lastErr l = none ↔ ∀ o ∈ l, o = none := by
  rw [lastErr, foldl_elim_none]
  simp

/-- C10: with the dialer built, the probe's final error is the last
failing check's error (`none` when no check failed): the outcome is a
success if and only if every one of the repeated sequential checks
succeeded — a later success never clears a recorded error, a later
failure overwrites it. -/
theorem checks_accumulate_errors (cfg : Config) (env : Env) (fb : ChainedServerInfo)
    (wid : Nat)
    (h : env.chainedDialer (dialName fb) { fb with MaxPreconnect := 1 } = .ok ()) :
    (testFallbackServer cfg env fb wid).1.err
      = lastErr ((List.range cfg.checks).map
          (checkVerdict cfg env { fb with MaxPreconnect := 1 })) ∧
    ((testFallbackServer cfg env fb wid).1.err = none ↔
      ∀ i < cfg.checks, checkVerdict cfg env { fb with MaxPreconnect := 1 } i = none) := by
  unfold dialName at h
  have hrun : (testFallbackServer cfg env fb wid).1
      = (List.range cfg.checks).foldl
          (checkOnce cfg env { fb with MaxPreconnect := 1 })
          { addr := fb.Addr, err := none, info := [] } := by
    simp [testFallbackServer, h]
  have h1 : (testFallbackServer cfg env fb wid).1.err
      = lastErr ((List.range cfg.checks).map
          (checkVerdict cfg env { fb with MaxPreconnect := 1 })) := by
    rw [hrun, foldl_checkOnce_err, lastErr, List.foldl_map]
  refine ⟨h1, ?_⟩
  rw [h1, lastErr_none_iff]
  simp

/-- Witness for C10: with two checks configured against an all-succeeding
environment, the accumulated error is the fold of the two verdicts and
success coincides with both verdicts being clean. -/
theorem checks_accumulate_errors_witness :
    envOK.chainedDialer (dialName fbPlain) { fbPlain with MaxPreconnect := 1 } = .ok () ∧
    ((testFallbackServer cfgTwo envOK fbPlain 1).1.err
      = lastErr ((List.range 2).map
          (checkVerdict cfgTwo envOK { fbPlain with MaxPreconnect := 1 })) ∧
     ((testFallbackServer cfgTwo envOK fbPlain 1).1.err = none ↔
      ∀ i < 2, checkVerdict cfgTwo envOK { fbPlain with MaxPreconnect := 1 } i = none)) :=
  ⟨rfl, checks_accumulate_errors cfgTwo envOK fbPlain 1 rfl⟩

/-! ### Pool lemmas -/

/-- No worker of a fresh pool holds a record. -/
theorem busyItems_replicate_idle (n : Nat) :
    busyItems (List.replicate n .idle) = [] := by
  induction n with
  | zero => rfl
  | succ k ih => simp [List.replicate_succ, busyItems, ih]

/-- Once every worker has returned, none holds a record. -/
theorem busyItems_all_finished (ws : List WStatus)
    (h : ∀ w ∈ ws, w = .finished) : busyItems ws = [] := by
  induction ws with
  | nil => rfl
  | cons w t ih =>
    have hw := h w (List.mem_cons_self w t)
    subst hw
    exact ih (fun x hx => h x (List.mem_cons_of_mem _ hx))

/-- Replacing the status at one position exchanges that worker's held
record (if any) for the new status's held record (if any), counting-wise. -/
theorem busyItems_count_set (ws : List WStatus) (i : Nat) (x w : WStatus)
    (h : ws[i]? = some w) (a : ChainedServerInfo) :
    (busyItems (ws.set i x)).count a + (busyItems [w]).count a
      = (busyItems ws).count a + (busyItems [x]).count a := by
  induction ws generalizing i with
  | nil => simp at h
  | cons wh t ih =>
    cases i with
    | zero =>
      rw [List.getElem?_cons_zero] at h
      obtain rfl : wh = w := Option.some.inj h
      rw [List.set_cons_zero]
      cases wh <;> cases x <;> simp [busyItems, List.count_cons] <;> omega
    | succ j =>
      rw [List.getElem?_cons_succ] at h
      rw [List.set_cons_succ]
      have H := ih j h
      cases wh <;> simp [busyItems, List.count_cons] <;> omega

/-- Every pool transition preserves the invariant. -/
theorem step_preserves_inv (probe : ChainedServerInfo → fullOutput)
    (records : List ChainedServerInfo) (n : Nat) (s : PoolState) (ev : Ev)
    (h : PoolInv probe records n s) : PoolInv probe records n (step probe s ev) := by
  cases ev with
  | closeOutput =>
    unfold step
    by_cases hall : ∀ w ∈ s.workers, w = WStatus.finished
    · rw [if_pos hall]
      exact ⟨h.wlen, h.cnt, h.doneEmpty, fun _ => hall, h.outProbe⟩
    · rw [if_neg hall]
      exact h
  | work i =>
    unfold step
    cases hw : s.workers[i]? with
    | none => simp only [hw]; exact h
    | some w =>
      cases w with
      | finished => simp only [hw]; exact h
      | idle =>
        cases hq : s.queue with
        | nil =>
          simp only [hw, hq]
          refine ⟨?_, ?_, ?_, ?_, ?_⟩
          · simpa [List.length_set] using h.wlen
          · intro a
            have hb := busyItems_count_set s.workers i .finished .idle hw a
            have hc := h.cnt a
            simp only [busyItems, List.count_nil] at hb
            rw [hq] at hc
            dsimp only
            simp only [List.count_nil] at hc ⊢
            omega
          · intro _
            rfl
          · intro hcl wx hwx
            rcases List.mem_or_eq_of_mem_set hwx with h1 | h1
            · exact h.closedDone hcl wx h1
            · exact h1
          · exact h.outProbe
        | cons fb rest =>
          simp only [hw, hq]
          refine ⟨?_, ?_, ?_, ?_, ?_⟩
          · simpa [List.length_set] using h.wlen
          · intro a
            have hb := busyItems_count_set s.workers i (.busy fb) .idle hw a
            have hc := h.cnt a
            rw [hq] at hc
            simp only [busyItems, List.count_nil, List.count_cons] at hb hc
            dsimp only
            omega
          · intro hmem
            rcases List.mem_or_eq_of_mem_set hmem with h1 | h1
            · exact absurd (h.doneEmpty h1) (by simp [hq])
            · cases h1
          · intro hcl wx hwx
            have := h.closedDone hcl _ (List.getElem?_mem hw)
            cases this
          · exact h.outProbe
      | busy fb =>
        simp only [hw]
        refine ⟨?_, ?_, ?_, ?_, ?_⟩
        · simpa [List.length_set] using h.wlen
        · intro a
          have hb := busyItems_count_set s.workers i .idle (.busy fb) hw a
          have hc := h.cnt a
          simp only [busyItems, List.count_nil, List.count_cons] at hb hc
          dsimp only
          simp only [List.map_append, List.count_append, List.map_cons, List.map_nil,
            List.count_cons, List.count_nil]
          omega
        · intro hmem
          rcases List.mem_or_eq_of_mem_set hmem with h1 | h1
          · exact h.doneEmpty h1
          · cases h1
        · intro hcl wx hwx
          have := h.closedDone hcl _ (List.getElem?_mem hw)
          cases this
        · intro p hp
          rcases List.mem_append.mp hp with h1 | h1
          · exact h.outProbe p h1
          · rcases List.mem_singleton.mp h1 with rfl
            rfl

/-- The invariant holds after any schedule. -/
theorem runPool_inv (probe : ChainedServerInfo → fullOutput)
    (records : List ChainedServerInfo) (n : Nat) :
    ∀ (sched : List Ev) (s : PoolState), PoolInv probe records n s →
      PoolInv probe records n (runPool probe s sched) := by
  intro sched
  induction sched with
  | nil => intro s h; exact h
  | cons ev t ih =>
    intro s h
    exact ih (step probe s ev) (step_preserves_inv probe records n s ev h)

/-- The invariant holds of the freshly initialised pool. -/
theorem initPool_inv (probe : ChainedServerInfo → fullOutput)
    (fallbacks : List (List ChainedServerInfo)) (n : Nat) :
    PoolInv probe (flattenFallbacks fallbacks) n (initPool fallbacks n) := by
  refine ⟨?_, ?_, ?_, ?_, ?_⟩
  · simp [initPool]
  · intro a
    simp [initPool, busyItems_replicate_idle]
  · intro hmem
    simp only [initPool] at hmem
    have h2 := List.eq_of_mem_replicate hmem
    cases h2
  · intro hcl
    simp [initPool] at hcl
  · intro p hp
    simp [initPool] at hp

/-- Once the output channel has closed, the published records are exactly
the input records, as a permutation. -/
theorem runPool_closed_perm (probe : ChainedServerInfo → fullOutput)
    (fallbacks : List (List ChainedServerInfo)) (n : Nat) (hn : 1 ≤ n)
    (sched : List Ev)
    (hc : (runPool probe (initPool fallbacks n) sched).closed = true) :
    ((runPool probe (initPool fallbacks n) sched).output.map Prod.fst).Perm
      (flattenFallbacks fallbacks) := by
  have hinv := runPool_inv probe (flattenFallbacks fallbacks) n sched _
    (initPool_inv probe fallbacks n)
  have hall := hinv.closedDone hc
  have hne : (runPool probe (initPool fallbacks n) sched).workers ≠ [] := by
    intro h0
    have := hinv.wlen
    rw [h0] at this
    simp at this
    omega
  obtain ⟨w0, hw0⟩ := List.exists_mem_of_ne_nil _ hne
  have hfin : WStatus.finished ∈ (runPool probe (initPool fallbacks n) sched).workers :=
    hall w0 hw0 ▸ hw0
  have hq := hinv.doneEmpty hfin
  have hb := busyItems_all_finished _ hall
  rw [List.perm_iff_count]
  intro a
  have hc2 := hinv.cnt a
  rw [hq, hb] at hc2
  simpa using hc2

/-- Running a concatenation of schedules runs them in sequence. -/
theorem runPool_append (probe : ChainedServerInfo → fullOutput) (s : PoolState)
    (l1 l2 : List Ev) :
    runPool probe s (l1 ++ l2) = runPool probe (runPool probe s l1) l2 := by
  simp [runPool, List.foldl_append]

/-- Worker 0 alone can drain the whole queue, publishing each record's
outcome in queue order. -/
theorem drain_run (probe : ChainedServerInfo → fullOutput) :
    ∀ (records : List ChainedServerInfo) (tws : List WStatus)
      (o : List (ChainedServerInfo × fullOutput)),
    runPool probe
        { queue := records, workers := .idle :: tws, output := o, closed := false }
        (drainSched records.length)
      = { queue := [], workers := .idle :: tws,
          output := o ++ records.map (fun a => (a, probe a)), closed := false } := by
  intro records
  induction records with
  | nil =>
    intro tws o
    simp [drainSched, runPool]
  | cons a t ih =>
    intro tws o
    have hds : drainSched (a :: t).length
        = Ev.work 0 :: Ev.work 0 :: drainSched t.length := by
      simp [drainSched, List.replicate_succ]
    rw [hds]
    have s1 : step probe
        { queue := a :: t, workers := .idle :: tws, output := o, closed := false }
        (Ev.work 0)
        = { queue := t, workers := .busy a :: tws, output := o, closed := false } := by
      simp [step]
    have s2 : step probe
        { queue := t, workers := .busy a :: tws, output := o, closed := false }
        (Ev.work 0)
        = { queue := t, workers := .idle :: tws, output := o ++ [(a, probe a)],
            closed := false } := by
      simp [step]
    show runPool probe _ (Ev.work 0 :: Ev.work 0 :: drainSched t.length) = _
    simp only [runPool, List.foldl_cons]
    rw [show List.foldl (step probe)
          (step probe (step probe
            { queue := a :: t, workers := .idle :: tws, output := o, closed := false }
            (Ev.work 0)) (Ev.work 0))
          (drainSched t.length)
        = runPool probe
            { queue := t, workers := .idle :: tws, output := o ++ [(a, probe a)],
              closed := false }
            (drainSched t.length) from by rw [s1, s2]; rfl]
    rw [ih tws (o ++ [(a, probe a)])]
    simp

/-- Setting the element just past a list replaces the head of the tail. -/
theorem set_append_len {α : Type} (ws : List α) (x y : α) (rest : List α) :
    (ws ++ x :: rest).set ws.length y = ws ++ y :: rest := by
  induction ws with
  | nil => rfl
  | cons w t ih => simp [ih]

/-- Indexing just past a list reads the head of the tail. -/
theorem getElem?_append_len {α : Type} (ws : List α) (x : α) (rest : List α) :
    (ws ++ x :: rest)[ws.length]? = some x := by
  induction ws with
  | nil => rw [List.nil_append, List.length_nil, List.getElem?_cons_zero]
  | cons w t ih => rw [List.cons_append, List.length_cons, List.getElem?_cons_succ]; exact ih

/-- With the queue drained, scheduling each still-idle worker once lets
all of them observe the closed empty channel and return. -/
theorem finish_run (probe : ChainedServerInfo → fullOutput) :
    ∀ (k : Nat) (ws : List WStatus) (o : List (ChainedServerInfo × fullOutput)),
    (∀ w ∈ ws, w = .finished) →
    runPool probe
        { queue := [], workers := ws ++ List.replicate k .idle, output := o,
          closed := false }
        (finishSched ws.length k)
      = { queue := [], workers := ws ++ List.replicate k .finished, output := o,
          closed := false } := by
  intro k
  induction k with
  | zero =>
    intro ws o hws
    simp [finishSched, runPool]
  | succ k ih =>
    intro ws o hws
    have hcomp : (fun t => Ev.work (ws.length + t)) ∘ Nat.succ
        = fun t => Ev.work (ws.length + 1 + t) := by
      funext t
      simp only [Function.comp_apply]
      congr 1
      omega
    have hfs : finishSched ws.length (k + 1)
        = Ev.work ws.length :: finishSched (ws.length + 1) k := by
      simp only [finishSched, List.range_succ_eq_map, List.map_cons, List.map_map,
        hcomp, Nat.add_zero]
    rw [hfs]
    have hstep : step probe
        { queue := [], workers := ws ++ List.replicate (k + 1) .idle, output := o,
          closed := false }
        (Ev.work ws.length)
        = { queue := [], workers := (ws ++ [.finished]) ++ List.replicate k .idle,
            output := o, closed := false } := by
      unfold step
      dsimp only
      rw [List.replicate_succ, getElem?_append_len, set_append_len]
      simp [List.append_assoc]
    simp only [runPool, List.foldl_cons]
    rw [show List.foldl (step probe)
          (step probe
            { queue := [], workers := ws ++ List.replicate (k + 1) .idle, output := o,
              closed := false }
            (Ev.work ws.length))
          (finishSched (ws.length + 1) k)
        = runPool probe
            { queue := [], workers := (ws ++ [.finished]) ++ List.replicate k .idle,
              output := o, closed := false }
            (finishSched (ws.length + 1) k) from by rw [hstep]; rfl]
    have hws2 : ∀ w ∈ ws ++ [WStatus.finished], w = WStatus.finished := by
      intro w hw
      rcases List.mem_append.mp hw with h1 | h1
      · exact hws w h1
      · simpa using h1
    have hlen : (ws ++ [WStatus.finished]).length = ws.length + 1 := by simp
    have := ih (ws ++ [.finished]) o hws2
    rw [hlen] at this
    rw [this]
    simp [List.replicate_succ, List.append_assoc]

/-- Some schedule closes the output channel: drain with worker 0, let the
other workers return, then close. -/
theorem pool_terminates (probe : ChainedServerInfo → fullOutput)
    (fallbacks : List (List ChainedServerInfo)) (n : Nat) (hn : 1 ≤ n) :
    ∃ sched, (runPool probe (initPool fallbacks n) sched).closed = true := by
  obtain ⟨k, rfl⟩ : ∃ k, n = k + 1 := ⟨n - 1, by omega⟩
  refine ⟨drainSched (flattenFallbacks fallbacks).length
      ++ (finishSched 0 (k + 1) ++ [Ev.closeOutput]), ?_⟩
  rw [runPool_append, runPool_append]
  have h0 : initPool fallbacks (k + 1)
      = { queue := flattenFallbacks fallbacks,
          workers := .idle :: List.replicate k .idle, output := [], closed := false } := by
    simp [initPool, List.replicate_succ]
  rw [h0, drain_run]
  simp only [List.nil_append]
  have hf := finish_run probe (k + 1) [] ([] ++
      (flattenFallbacks fallbacks).map (fun a => (a, probe a)))
    (by intro w hw; cases hw)
  simp only [List.nil_append, List.length_nil, List.replicate_succ] at hf
  rw [hf]
  have hall : ∀ w ∈ (WStatus.finished :: List.replicate k WStatus.finished),
      w = WStatus.finished := by
    intro w hw
    rcases List.mem_cons.mp hw with h1 | h1
    · exact h1
    · exact List.eq_of_mem_replicate h1
  show (step probe _ Ev.closeOutput).closed = true
  unfold step
  rw [if_pos hall]

/-- C1: for every input list and every concurrency degree at least 1, the
worker pool publishes exactly one outcome per input record — none
dropped, none duplicated — each outcome being its record's probe result,
the output channel closes only after all workers have returned, and some
execution does close it, terminating the stream. -/
theorem pool_exactly_once (probe : ChainedServerInfo → fullOutput)
    (fallbacks : List (List ChainedServerInfo)) (n : Nat) (hn : 1 ≤ n) :
    poolSpec probe fallbacks n := by
  refine ⟨?_, ?_, ?_, pool_terminates probe fallbacks n hn⟩
  · intro sched a
    have hinv := runPool_inv probe (flattenFallbacks fallbacks) n sched _
      (initPool_inv probe fallbacks n)
    have := hinv.cnt a
    omega
  · intro sched p hp
    exact (runPool_inv probe (flattenFallbacks fallbacks) n sched _
      (initPool_inv probe fallbacks n)).outProbe p hp
  · intro sched hc
    have hinv := runPool_inv probe (flattenFallbacks fallbacks) n sched _
      (initPool_inv probe fallbacks n)
    exact ⟨hinv.closedDone hc, hinv.wlen,
      runPool_closed_perm probe fallbacks n hn sched hc⟩

/-- Witness for C1: the pool specification holds of a concrete
two-record input at concurrency 1. -/
theorem pool_exactly_once_witness : 1 ≤ 1 ∧ poolSpec probeW fbsW 1 :=
  ⟨by decide, pool_exactly_once probeW fbsW 1 (by decide)⟩

/-- C7: an empty filename, an unreadable file, or unparsable JSON abort
with a non-zero status before any probing; a successful load makes the
process exit 0 whatever the probe outcomes were; a dialer-construction
failure is captured in that record's outcome instead of aborting; and
with per-record probing as the pool's probe, every record still yields
exactly one outcome whenever the output channel closes. -/
theorem failure_containment :
    (∀ fsys : FileEnv, loadFallbacks fsys "" = .error 2) ∧
    (∀ (fsys : FileEnv) (fn : String) (e : String), fn ≠ "" →
      fsys.readFile fn = .error e →
      loadFallbacks fsys fn = .error 1 ∧ mainExitCode fsys fn = 1) ∧
    (∀ (fsys : FileEnv) (fn : String) (bs : List Nat) (e : String), fn ≠ "" →
      fsys.readFile fn = .ok bs → fsys.jsonUnmarshal bs = .error e →
      loadFallbacks fsys fn = .error 1 ∧ mainExitCode fsys fn = 1) ∧
    (∀ (fsys : FileEnv) (fn : String) (fbs : List (List ChainedServerInfo)),
      loadFallbacks fsys fn = .ok fbs → mainExitCode fsys fn = 0) ∧
    (∀ (cfg : Config) (env : Env) (fb : ChainedServerInfo) (wid : Nat) (e : String),
      env.chainedDialer (dialName fb) { fb with MaxPreconnect := 1 } = .error e →
      (testFallbackServer cfg env fb wid).1.err
        = some (fb.Addr ++ ": error building dialer: " ++ e)) ∧
    (∀ (cfg : Config) (env : Env) (fallbacks : List (List ChainedServerInfo))
        (n : Nat) (sched : List Ev), 1 ≤ n →
      (runPool (fun fb => (testFallbackServer cfg env fb 0).1)
          (initPool fallbacks n) sched).closed = true →
      ((runPool (fun fb => (testFallbackServer cfg env fb 0).1)
          (initPool fallbacks n) sched).output.map Prod.fst).Perm
        (flattenFallbacks fallbacks)) := by
  refine ⟨?_, ?_, ?_, ?_, ?_, ?_⟩
  · intro fsys
    simp [loadFallbacks]
  · intro fsys fn e h1 h2
    constructor
    · simp [loadFallbacks, h1, h2]
    · simp [mainExitCode, loadFallbacks, h1, h2]
  · intro fsys fn bs e h1 h2 h3
    constructor
    · simp [loadFallbacks, h1, h2, h3]
    · simp [mainExitCode, loadFallbacks, h1, h2, h3]
  · intro fsys fn fbs h
    simp [mainExitCode, h]
  · intro cfg env fb wid e h
    unfold dialName at h
    simp [testFallbackServer, h]
  · intro cfg env fallbacks n sched hn hc
    exact runPool_closed_perm _ fallbacks n hn sched hc

/-- Witness for C7: a missing file aborts with status 1 before probing; a
failing dialer is recorded in the outcome; and a pool over the
always-failing-dialer probe still closes with one outcome per record. -/
theorem failure_containment_witness :
    loadFallbacks fsysBad "" = .error 2 ∧
    ("fallbacks.json" ≠ ("" : String) ∧
      fsysBad.readFile "fallbacks.json" = .error "no such file" ∧
      loadFallbacks fsysBad "fallbacks.json" = .error 1 ∧
      mainExitCode fsysBad "fallbacks.json" = 1) ∧
    (envBadDialer.chainedDialer (dialName fbPlain) { fbPlain with MaxPreconnect := 1 }
        = .error "bad cert" ∧
      (testFallbackServer cfgPing envBadDialer fbPlain 1).1.err
        = some (fbPlain.Addr ++ ": error building dialer: " ++ "bad cert")) ∧
    (1 ≤ 1 ∧
      (runPool (fun fb => (testFallbackServer cfgPing envBadDialer fb 0).1)
          (initPool [] 1) [Ev.work 0, Ev.closeOutput]).closed = true ∧
      ((runPool (fun fb => (testFallbackServer cfgPing envBadDialer fb 0).1)
          (initPool [] 1) [Ev.work 0, Ev.closeOutput]).output.map Prod.fst).Perm
        (flattenFallbacks [])) :=
  ⟨failure_containment.1 fsysBad,
   ⟨by decide, rfl,
    failure_containment.2.1 fsysBad "fallbacks.json" "no such file" (by decide) rfl⟩,
   ⟨rfl,
    failure_containment.2.2.2.2.1 cfgPing envBadDialer fbPlain 1 "bad cert" rfl⟩,
   ⟨by decide, by decide,
    failure_containment.2.2.2.2.2 cfgPing envBadDialer [] 1 [Ev.work 0, Ev.closeOutput]
      (by decide) (by decide)⟩⟩

end Checkfallbacks
